import Mathlib

/-!
Verification development for the object-mapping and request-routing layer of
the `python-jss` client library (`jss/jss.py`).

The definitions below are a shallow embedding of the Python source:
  * `Element` models `xml.etree.ElementTree.Element` (tag, text, children).
  * `PyErr` models the exception classes raised by the library and the
    Python builtins it can hit (`ValueError`, `TypeError`, `KeyError`,
    `NameError`/`UnboundLocalError`, `AttributeError`).
  * `ObjClass` models the per-resource-type class attributes
    (`_url`, `can_*` flags, `id_url`, `container`, `default_search`,
    `search_types`), with `isFlat` distinguishing `JSSFlatObject`
    subclasses (which override `get_url`/`get_object_url`).
  * `Session` models the HTTP transport responses observed by
    `JSS.get/put/post/delete` (after `_error_handler` / XML parsing).
Stateful methods are embedded as pure functions that return the result,
the new object tree, and the list of transport calls issued.
-/

/-- Model of `xml.etree.ElementTree.Element`: a tag, optional text, and
child elements (attributes are irrelevant to the verified code paths). -/
inductive Element where
  | mk (tag : String) (text : Option String) (children : List Element)

def Element.tag : Element → String
  | .mk t _ _ => t

def Element.text : Element → Option String
  | .mk _ x _ => x

def Element.children : Element → List Element
  | .mk _ _ c => c

/-- Model of the Python exceptions that the verified code can raise.
`putError`/`postError` carry the `status_code` attribute (set by
`JSS._error_handler`; absent — `none` — on re-wrapped exceptions, whose
constructor argument is the wrapped exception, kept in `cause`).
`methodNotAllowed` models `JSSMethodNotAllowedError`; the message string it
is constructed with is not load-bearing and is omitted. -/
inductive PyErr where
  | getError
  | putError (status : Option Nat) (cause : Option PyErr)
  | postError (status : Option Nat) (cause : Option PyErr)
  | deleteError
  | methodNotAllowed
  | unsupportedSearchMethod (msg : String)
  | valueError (msg : String)
  | typeError
  | keyError
  | nameError
  | attributeError

/-! ## Python string helpers -/

/-- Characters treated as whitespace by Python `int(str)` / `str.strip()`. -/
def isPySpace (c : Char) : Bool :=
  c = ' ' || c = '\t' || c = '\n' || c = '\r' || c = '\x0b' || c = '\x0c'

/-- The character for a single decimal digit. -/
def digitChar (d : Nat) : Char := Char.ofNat (48 + d)

/-- Decimal digits of `n`, least significant first, with explicit fuel
(structurally recursive, so it evaluates inside the kernel). -/
def natDigitsRev : Nat → Nat → List Nat
  | 0, _ => []
  | fuel + 1, n => if n = 0 then [] else n % 10 :: natDigitsRev fuel (n / 10)

/-- Decimal digit characters of `n`, most significant first. -/
def natDigitsBE (n : Nat) : List Char :=
  ((natDigitsRev n n).map digitChar).reverse

/-- Model of Python `str(n)` for a natural number. -/
def pyStrNat (n : Nat) : String :=
  if n = 0 then "0" else String.mk (natDigitsBE n)

/-- Model of Python `str(i)` for an integer. -/
def pyStrInt (i : Int) : String :=
  if i < 0 then "-" ++ pyStrNat i.natAbs else pyStrNat i.natAbs

/-- Value of a decimal digit character, if it is one. -/
def charDigit (c : Char) : Option Nat :=
  if 48 ≤ c.toNat ∧ c.toNat ≤ 57 then some (c.toNat - 48) else none

/-- Left-to-right accumulation of decimal digits; `none` on a non-digit. -/
def parseNatChars : List Char → Nat → Option Nat
  | [], acc => some acc
  | c :: cs, acc =>
    match charDigit c with
    | some d => parseNatChars cs (acc * 10 + d)
    | none => none

/-- Parse a nonempty all-digit character list. -/
def parseDigits (cs : List Char) : Option Nat :=
  match cs with
  | [] => none
  | _ => parseNatChars cs 0

/-- Strip leading and trailing Python whitespace from a character list. -/
def stripPySpaces (cs : List Char) : List Char :=
  ((cs.dropWhile isPySpace).reverse.dropWhile isPySpace).reverse

/-- Sign-and-digits parsing on a whitespace-stripped character list. -/
def pyParseIntCore : List Char → Option Int
  | [] => none
  | c :: rest =>
    if c = '+' then (parseDigits rest).map (fun n => (n : Int))
    else if c = '-' then (parseDigits rest).map (fun n => -(n : Int))
    else (parseDigits (c :: rest)).map (fun n => (n : Int))

/-- Model of Python 2 `int(s)` for a string argument: optional surrounding
whitespace, optional single sign, then a nonempty run of decimal digits;
any other shape raises `ValueError` (modelled as `none`). -/
def pyParseInt (s : String) : Option Int :=
  pyParseIntCore (stripPySpaces s.data)

/-- Model of Python `s.rstrip(c)`: remove every trailing occurrence of `c`. -/
def pyRstrip (s : String) (c : Char) : String :=
  String.mk ((s.data.reverse.dropWhile (fun x => x = c)).reverse)

/-- Model of Python `s.split(sep)` for a single-character separator and no
maxsplit, on character lists.  Always returns a nonempty list of parts. -/
def splitChars (sep : Char) : List Char → List (List Char)
  | [] => [[]]
  | x :: xs =>
    match splitChars sep xs with
    | [] => [[]]
    | p :: ps => if x = sep then [] :: p :: ps else (x :: p) :: ps

/-- Model of Python `s.split(sep)` for a single-character separator. -/
def pySplit (sep : Char) (s : String) : List String :=
  (splitChars sep s.data).map String.mk

/-- Number of occurrences of `c` in `s`. -/
def countChar (c : Char) (s : String) : Nat :=
  s.data.count c

/-- Model of the Python membership test `c in s` for a character. -/
def charInString (c : Char) (s : String) : Bool :=
  s.data.any (fun x => x = c)

/-- Model of Python `"%s" % x` for `x : Option String` (`None` prints as
the literal text `None`). -/
def pyStrOpt : Option String → String
  | none => "None"
  | some s => s

/-! ## Resource descriptors (`JSSObject` class attributes) -/

/-- Per-resource-type metadata: the class attributes declared on each
`JSSObject` subclass in `jss.py`.  `isFlat` is true for `JSSFlatObject`
subclasses, which override `get_url` and `get_object_url`;
`isComputer` marks the `Computer` class (special-cased for the
`subset=basic` list request in `JSSObjectFactory.get_object`). -/
structure ObjClass where
  url : String
  canList : Bool := true
  canGet : Bool := true
  canPut : Bool := true
  canPost : Bool := true
  canDelete : Bool := true
  idUrl : String := "/id/"
  container : String := ""
  defaultSearch : String := "name"
  searchTypes : List (String × String) := [("name", "/name/")]
  listType : String := "JSSObject"
  isFlat : Bool := false
  isComputer : Bool := false
deriving DecidableEq

/-- The lookup argument of `JSSObject.get_url` (`None`, an `int`, or a
`str`). -/
inductive Lookup where
  | pyNone
  | int (n : Int)
  | str (s : String)
deriving DecidableEq

/-- Model of `"%s" % data` for a lookup argument. -/
def fmtLookup : Lookup → String
  | .pyNone => "None"
  | .int n => pyStrInt n
  | .str s => s

/-- Model of `JSSObject.get_url` (classmethod, `jss.py` lines 704-726) and
of the `JSSFlatObject.get_url` override (lines 1073-1080).

The Python first attempts `data = int(data)` (ignoring `ValueError` /
`TypeError`), then dispatches on the type of `data`; a string lookup is
split on `"="` into exactly two parts (more parts raise the unpacking
`ValueError`), and the key is resolved against the class `search_types`
dict. -/
def getUrl (cls : ObjClass) (data : Lookup) : Except PyErr String :=
  if cls.isFlat then
    -- JSSFlatObject.get_url: any non-None data is rejected.
    match data with
    | .pyNone => .ok cls.url
    | d => .error (.unsupportedSearchMethod
        ("This object cannot be queried by " ++ fmtLookup d ++ "."))
  else
    -- try: data = int(data); except (ValueError, TypeError): pass
    let data : Lookup := match data with
      | .str s => match pyParseInt s with
        | some m => .int m
        | none => .str s
      | d => d
    match data with
    | .int n => .ok (cls.url ++ cls.idUrl ++ pyStrInt n)
    | .pyNone => .ok cls.url
    | .str s =>
      if charInString '=' s then
        match pySplit '=' s with
        | [k, v] =>
          match cls.searchTypes.lookup k with
          | some seg => .ok (cls.url ++ seg ++ v)
          | none => .error (.unsupportedSearchMethod
              ("This object cannot be queried by " ++ k ++ "."))
        | _ => .error (.valueError "too many values to unpack")
      else
        match cls.searchTypes.lookup cls.defaultSearch with
        | some seg => .ok (cls.url ++ seg ++ s)
        | none => .error .keyError

/-- Model of `JSSObject.get_post_url`: the creation URL (id 0). -/
def getPostUrl (cls : ObjClass) : String :=
  cls.url ++ cls.idUrl ++ "0"

/-! ## ElementTree find / findtext -/

/-- All elements matching a simple `a/b/c` path (as a list of tags), in
document order — the search model of `ElementTree.Element.iterfind` for
plain child-tag paths. -/
def findAllPath : List String → Element → List Element
  | [], e => [e]
  | t :: ts, e => (e.children.filter (fun c => c.tag = t)).flatMap (findAllPath ts)

/-- Model of `Element.find(path)` for a simple child-tag path. -/
def findPath (e : Element) (path : List String) : Option Element :=
  (findAllPath path e).head?

/-- Model of `Element.findtext(path)`: `None` when no element matches;
the empty string when the matched element has no text. -/
def findtextPath (e : Element) (path : List String) : Option String :=
  match findPath e path with
  | none => none
  | some el => some (el.text.getD "")

/-- Model of the truthiness-based Python `a or b` for the `Option String`
results of `findtext` (`None` and `""` are falsy). -/
def pyOrText (a b : Option String) : Option String :=
  if a = none ∨ a = some "" then b else a

/-- Model of the `JSSObject.id` property:
`self.findtext("id") or self.findtext("general/id")`. -/
def jssObjId (e : Element) : Option String :=
  pyOrText (findtextPath e ["id"]) (findtextPath e ["general", "id"])

/-- Model of the `JSSObject.name` property:
`self.findtext("name") or self.findtext("general/name")`. -/
def jssObjName (e : Element) : Option String :=
  pyOrText (findtextPath e ["name"]) (findtextPath e ["general", "name"])

/-- Model of `JSSObject.get_object_url` (and the `JSSFlatObject`
override, which returns `get_url(None)`, i.e. the bare class URL). -/
def getObjectUrl (cls : ObjClass) (self : Element) : String :=
  if cls.isFlat then cls.url
  else cls.url ++ cls.idUrl ++ pyStrOpt (jssObjId self)

/-- Model of `Element.clear()`: text reset, children removed, tag kept. -/
def clearElem (e : Element) : Element :=
  .mk e.tag none []

/-- Replace the children of `e` (the `self._children.append` loop after
`self.clear()` in `JSSObject.save`). -/
def setChildren (e : Element) (kids : List Element) : Element :=
  .mk e.tag e.text kids

/-- Model of `JSSObject.__init__` with an `Element` argument: a fresh
element with the source's tag and its children appended (text is not
copied). -/
def mkJssObject (data : Element) : Element :=
  .mk data.tag none data.children

/-! ## Transport sessions and the factory -/

/-- One transport request issued through the `JSS` session wrappers. -/
inductive Call where
  | get (url : String)
  | put (url : String)
  | post (url : String)
  | delete (url : String)

/-- The transport responses, from the point of view of the `JSS.get`,
`JSS.put`, `JSS.post` and `JSS.delete` wrappers:
  * `respGet url` — the parsed XML of a successful GET, or the raised
    exception (`JSS.get` itself only ever raises `JSSGetError`);
  * `respPut url` — `none` on success (`JSS.put` returns nothing), or the
    raised exception (`JSS.put` only ever raises `JSSPutError` with
    `status_code` set);
  * `respPost url` — the id extracted from the `<id>…</id>` echo of a
    successful POST, or the raised exception;
  * `respDelete url` — `none` on success, or the raised exception. -/
structure Session where
  respGet : String → Except PyErr Element
  respPut : String → Option PyErr
  respPost : String → Except PyErr Int
  respDelete : String → Option PyErr

/-- The `data` argument of `JSSObjectFactory.get_object`: `None`, an
`int`/`str` lookup, an already-parsed `Element`, or any other Python
value (e.g. a `dict`, which the docstring mentions but the code does not
handle). -/
inductive Data where
  | pyNone
  | int (n : Int)
  | str (s : String)
  | elem (e : Element)
  | other

/-- The `subset` argument of `JSSObjectFactory.get_object`: `None`, a
list, a string (split on `"&"`), or any other (truthy) Python value. -/
inductive SubsetArg where
  | pyNone
  | list (l : List String)
  | str (s : String)
  | other

/-- Python truthiness of a `subset` argument (`None`, `[]` and `""` are
falsy; the `other` case stands for a truthy non-list non-string value). -/
def subsetTruthy : SubsetArg → Bool
  | .pyNone => false
  | .list l => !l.isEmpty
  | .str s => s ≠ ""
  | .other => true

/-- The subset-normalisation prologue of `get_object`: a truthy non-list
subset is split on `"&"` if it is a string, otherwise `TypeError`. -/
def normalizeSubset : SubsetArg → Except PyErr SubsetArg
  | s =>
    if subsetTruthy s then
      match s with
      | .list l => .ok (.list l)
      | .str st => .ok (.list (pySplit '&' st))
      | .pyNone => .ok .pyNone
      | .other => .error .typeError
    else .ok s

/-- What `get_object` returns: a `JSSObjectList` of `JSSListData`
records (each the `{i.tag: i.text}` dict over a summary record's
children), a single `JSSObject`, or Python `None` (the fall-through when
no branch handles `data`). -/
inductive GetResult where
  | list (items : List (List (String × Option String)))
  | object (e : Element)
  | pyNone

/-- Whether a factory result is a collection. -/
def GetResult.isList : GetResult → Bool
  | .list _ => true
  | _ => false

/-- Insert into a Python-dict model (association list, replacing an
existing binding for the key). -/
def dictInsert (d : List (String × Option String)) (k : String) (v : Option String) :
    List (String × Option String) :=
  if d.any (fun p => p.1 = k) then
    d.map (fun p => if p.1 = k then (k, v) else p)
  else d ++ [(k, v)]

/-- The `JSSListData` dict `{i.tag: i.text for i in response_object}`. -/
def listDataOf (ro : Element) : List (String × Option String) :=
  ro.children.foldl (fun d c => dictInsert d c.tag c.text) []

/-- The `"&".join(subset)` url suffix with the implicit `general` subset
appended when missing. -/
def subsetSuffix (l : List String) : String :=
  let l := if l.contains "general" then l else l ++ ["general"]
  "/subset/" ++ String.intercalate "&" l

/-- Model of `JSSObjectFactory.get_object` (`jss.py` lines 564-652),
returning the result together with the transport calls issued.

Faithfulness notes:
  * iterating the `None` result of `result.find(container)` raises
    `TypeError` in Python;
  * the `item is not None` guard of the comprehensions is vacuous when
    iterating an `Element` and is dropped;
  * the `elif isinstance(data, JSSObjectTemplate)` create branch of the
    source is commented out, so `Element` (and any other unhandled) data
    falls through and the function returns `None`. -/
def factoryGetObject (cls : ObjClass) (data : Data) (subset : SubsetArg)
    (sess : Session) : Except PyErr GetResult × List Call :=
  match normalizeSubset subset with
  | .error e => (.error e, [])
  | .ok subset =>
    match data with
    | .pyNone =>
      match getUrl cls .pyNone with
      | .error e => (.error e, [])
      | .ok url =>
        if cls.canList && cls.canGet then
          let url := if (match subset with
                         | .list l => subsetTruthy (.list l) && l.length = 1 &&
                             (l.headD "").toUpper = "BASIC"
                         | _ => false) && cls.isComputer
                     then url ++ "/subset/basic" else url
          match sess.respGet url with
          | .error e => (.error e, [.get url])
          | .ok result =>
            if cls.container ≠ "" then
              match findPath result [cls.container] with
              | none => (.error .typeError, [.get url])
              | some inner =>
                let ros := inner.children.filter (fun item => item.tag ≠ "size")
                (.ok (.list (ros.map listDataOf)), [.get url])
            else
              let ros := result.children.filter (fun item => item.tag ≠ "size")
              (.ok (.list (ros.map listDataOf)), [.get url])
        else if cls.canGet then
          match sess.respGet url with
          | .error e => (.error e, [.get url])
          | .ok xmldata => (.ok (.object (mkJssObject xmldata)), [.get url])
        else (.error .methodNotAllowed, [])
    | .int n =>
      if cls.canGet then
        match getUrl cls (.int n) with
        | .error e => (.error e, [])
        | .ok url =>
          let url := match subset with
            | .list l => if subsetTruthy (.list l) then url ++ subsetSuffix l else url
            | _ => url
          match sess.respGet url with
          | .error e => (.error e, [.get url])
          | .ok xmldata =>
            if (findPath xmldata ["size"]).isSome then
              let ros := xmldata.children.filter (fun item => item.tag ≠ "size")
              (.ok (.list (ros.map listDataOf)), [.get url])
            else (.ok (.object (mkJssObject xmldata)), [.get url])
      else (.error .methodNotAllowed, [])
    | .str s =>
      if cls.canGet then
        match getUrl cls (.str s) with
        | .error e => (.error e, [])
        | .ok url =>
          let url := match subset with
            | .list l => if subsetTruthy (.list l) then url ++ subsetSuffix l else url
            | _ => url
          match sess.respGet url with
          | .error e => (.error e, [.get url])
          | .ok xmldata =>
            if (findPath xmldata ["size"]).isSome then
              let ros := xmldata.children.filter (fun item => item.tag ≠ "size")
              (.ok (.list (ros.map listDataOf)), [.get url])
            else (.ok (.object (mkJssObject xmldata)), [.get url])
      else (.error .methodNotAllowed, [])
    | .elem _ => (.ok .pyNone, [])
    | .other => (.ok .pyNone, [])

/-! ## JSSObject.delete and JSSObject.save -/

/-- Model of `JSSObject.delete` (`jss.py` lines 737-741). -/
def deleteObj (cls : ObjClass) (self : Element) (sess : Session) :
    Except PyErr Unit × List Call :=
  if !cls.canDelete then (.error .methodNotAllowed, [])
  else
    let url := getObjectUrl cls self
    match sess.respDelete url with
    | none => (.ok (), [.delete url])
    | some e => (.error e, [.delete url])

/-- The body of the `try` block of the update path of `save`:
`self.jss.put(url, self)` followed by `updated_data = self.jss.get(url)`.
Any exception raised by either call escapes this body (to be matched
against `except JSSPutError`). -/
def putTryBody (sess : Session) (url : String) :
    Except PyErr Element × List Call :=
  match sess.respPut url with
  | some e => (.error e, [.put url])
  | none =>
    match sess.respGet url with
    | .error e => (.error e, [.put url, .get url])
    | .ok updated => (.ok updated, [.put url, .get url])

/-- The re-raise `raise JSSPostError(e)` of `save`: a `JSSPostError` is
wrapped in a fresh `JSSPostError` (whose `status_code` attribute is not
set); any other exception propagates unchanged. -/
def wrapIfPostError : PyErr → PyErr
  | .postError st c => .postError none (some (.postError st c))
  | e => e

/-- What `save` ultimately assigned to `updated_data`: either the raw
`Element` from `self.jss.get(url)` (update path), or the result of
`self.jss.post(...)`, which is whatever `factory.get_object` returned for
the new id. -/
inductive UpdatedData where
  | elem (e : Element)
  | factoryRes (r : GetResult)

/-- `updated_data.getchildren()`: a list (`JSSObjectList`) or `None` has
no such attribute, so Python raises `AttributeError` there. -/
def childrenOfUD : UpdatedData → Except PyErr (List Element)
  | .elem e => .ok e.children
  | .factoryRes (.object e) => .ok e.children
  | .factoryRes (.list _) => .error .attributeError
  | .factoryRes .pyNone => .error .attributeError

/-- The epilogue of `save`: `self.clear()` runs first, then the children
of `updated_data` are appended — so if `updated_data` has no
`getchildren` the object is left cleared when the `AttributeError`
escapes. -/
def finishSave (self : Element) (ud : UpdatedData) (calls : List Call) :
    Except PyErr Unit × Element × List Call :=
  let cleared := clearElem self
  match childrenOfUD ud with
  | .ok kids => (.ok (), setChildren cleared kids, calls)
  | .error e => (.error e, cleared, calls)

/-- Model of `JSS.post` (`jss.py` lines 325-342): POST to the creation
URL, extract the new id from the response, then fetch the created object
through `factory.get_object(obj_class, id_)`. -/
def jssPost (cls : ObjClass) (postUrl : String) (sess : Session) :
    Except PyErr GetResult × List Call :=
  match sess.respPost postUrl with
  | .error e => (.error e, [.post postUrl])
  | .ok newId =>
    let fr := factoryGetObject cls (.int newId) .pyNone sess
    (fr.1, .post postUrl :: fr.2)

/-- The create attempt of `save` wrapped in its
`try: … except JSSPostError as e: raise JSSPostError(e)` handler,
followed by the clear-and-refill epilogue on success. -/
def postAndRefill (cls : ObjClass) (self : Element) (sess : Session)
    (pre : List Call) : Except PyErr Unit × Element × List Call :=
  let postUrl := getPostUrl cls
  let pr := jssPost cls postUrl sess
  match pr.1 with
  | .error e => (.error (wrapIfPostError e), self, pre ++ pr.2)
  | .ok res => finishSave self (.factoryRes res) (pre ++ pr.2)

/-- The `except JSSPutError as put_error` handler of `save`: exceptions
that are not `JSSPutError` propagate; a caught `JSSPutError` without a
`status_code` attribute raises `AttributeError`; status 404 falls back to
the create attempt when the class can POST (`MethodNotAllowedError`
otherwise); any other status is re-raised as `JSSPutError(put_error)` — a
fresh exception wrapping the caught one. -/
def putExceptDispatch (cls : ObjClass) (self : Element) (sess : Session)
    (calls : List Call) (e : PyErr) : Except PyErr Unit × Element × List Call :=
  match e with
  | .putError status cause =>
    match status with
    | none => (.error .attributeError, self, calls)
    | some s =>
      if s = 404 then
        if cls.canPost then postAndRefill cls self sess calls
        else (.error .methodNotAllowed, self, calls)
      else
        (.error (.putError none (some (.putError (some s) cause))), self, calls)
  | other => (.error other, self, calls)

/-- Model of `JSSObject.save` (`jss.py` lines 743-787), returning the
result, the object's tree after the call, and the transport calls issued.

Structure of the source: a capability gate
(`MethodNotAllowedError` when the class can neither PUT nor POST); the
update path for classes that can PUT, whose `except JSSPutError` handler
(`putExceptDispatch`) implements the 404 create fallback; the create-only
path for classes that can only POST; and finally the clear-and-refill of
the local tree from `updated_data` (`finishSave`). -/
def save (cls : ObjClass) (self : Element) (sess : Session) :
    Except PyErr Unit × Element × List Call :=
  if !cls.canPut && !cls.canPost then (.error .methodNotAllowed, self, [])
  else if cls.canPut then
    let url := getObjectUrl cls self
    let tb := putTryBody sess url
    match tb.1 with
    | .ok updated => finishSave self (.elem updated) tb.2
    | .error e => putExceptDispatch cls self sess tb.2 e
  else
    postAndRefill cls self sess []

/-! ## Structural list edits (`remove_object_from_list`) -/

/-- The `location` argument of the XML-editing helpers: an `Element` or a
string path for `find`. -/
inductive Loc where
  | elem (e : Element)
  | path (p : String)

/-- Model of `JSSObject._handle_location`: resolve a string path with
`find`, raising `ValueError` when nothing matches. -/
def handleLocation (self : Element) (loc : Loc) : Except PyErr Element :=
  match loc with
  | .elem e => .ok e
  | .path p =>
    match findPath self (pySplit '/' p) with
    | none => .error (.valueError "Invalid path!")
    | some e => .ok e

/-- The `obj` argument of `remove_object_from_list`: a `JSSObject`, an
`int`, a `str`, or any other Python value (unhandled by the source). -/
inductive RemoveKey where
  | jssObj (o : Element)
  | int (n : Int)
  | str (s : String)
  | other

/-- Python 2 equality between a `str`-or-`None` and an `int`: always
false (no exception, no coercion). -/
def pyEqTextInt (_a : Option String) (_n : Int) : Bool := false

/-- Whether a list child matches the removal key, per branch of
`remove_object_from_list`.  For a `JSSObject`, compare `findtext("id")`
with `obj.id` (Python `==`, so `None == None` matches).  For an `int`,
compare `findtext("id") == str(obj)` or `findtext("name") == obj` (the
latter never true in Python 2).  For a `str`, compare
`findtext("id") == obj` or `findtext("name") == obj`. -/
def matchesKey (key : RemoveKey) (item : Element) : Bool :=
  match key with
  | .jssObj o => findtextPath item ["id"] = jssObjId o
  | .int n => findtextPath item ["id"] = some (pyStrInt n)
      || pyEqTextInt (findtextPath item ["name"]) n
  | .str s => findtextPath item ["id"] = some s
      || findtextPath item ["name"] = some s
  | .other => false

/-- The `results` local of `remove_object_from_list`: `none` when no
branch of the `if`/`elif` assigns it (key of an unhandled type), in which
case reading it raises `UnboundLocalError` (a `NameError`). -/
def removeResults (listElem : Element) (key : RemoveKey) :
    Option (List Element) :=
  match key with
  | .jssObj o => some (listElem.children.filter (matchesKey (.jssObj o)))
  | .int n => some (listElem.children.filter (matchesKey (.int n)))
  | .str s => some (listElem.children.filter (matchesKey (.str s)))
  | .other => none

/-- Remove the first child satisfying `p` (the effect of
`list_element.remove(results[0])` when `results` has exactly one entry:
`results[0]` is the first — and only — matching child). -/
def removeFirstBy (p : Element → Bool) : List Element → List Element
  | [] => []
  | x :: xs => if p x then xs else x :: removeFirstBy p xs

/-- Model of `JSSObject.remove_object_from_list` (`jss.py` lines
907-928), returning the list element after the edit. -/
def removeObjectFromList (self : Element) (key : RemoveKey) (loc : Loc) :
    Except PyErr Element :=
  match handleLocation self loc with
  | .error e => .error e
  | .ok listElem =>
    match removeResults listElem key with
    | none => .error .nameError
    | some results =>
      if results.length = 1 then
        .ok (.mk listElem.tag listElem.text
          (removeFirstBy (matchesKey key) listElem.children))
      else
        .error (.valueError
          "There is either more than one object, or no matches at that path!")

/-! ## JSS session URL handling -/

/-- Model of the `JSS.base_url` setter (`jss.py` lines 283-287): the
stored value is `url.rstrip("/")`. -/
def setBaseUrl (url : String) : String :=
  pyRstrip url '/'

/-- Model of the `JSS._url` property (`jss.py` lines 273-276):
`"%s/%s" % (self.base_url, "JSSResource")`. -/
def jssApiUrl (base : String) : String :=
  base ++ "/" ++ "JSSResource"

/-! ## Concrete resource classes (from the descriptor table in `jss.py`) -/

/-- `class Policy(JSSContainerObject)`: `_url = "/policies"`,
`list_type = "policy"`, everything else inherited from `JSSObject`. -/
def Policy : ObjClass :=
  { url := "/policies", listType := "policy" }

/-- `class Computer(JSSDeviceObject)`: its `search_types` and the special
`subset=basic` handling in the factory. -/
def Computer : ObjClass :=
  { url := "/computers", listType := "computer",
    searchTypes := [("name", "/name/"), ("serial_number", "/serialnumber/"),
                    ("udid", "/udid/"), ("macaddress", "/macadress/"),
                    ("match", "/match/")],
    isComputer := true }

/-- `class ActivationCode(JSSFlatObject)`: `can_delete`, `can_post` and
`can_list` are `False`; `search_types = {}` from `JSSFlatObject`. -/
def ActivationCode : ObjClass :=
  { url := "/activationcode", listType := "activation_code",
    canDelete := false, canPost := false, canList := false,
    isFlat := true, searchTypes := [] }

/-- `class ComputerReport(JSSContainerObject)`: `can_put`, `can_post` and
`can_delete` are `False`. -/
def ComputerReport : ObjClass :=
  { url := "/computerreports", canPut := false, canPost := false,
    canDelete := false }

/-! ## Concrete elements and sessions for evaluation -/

/-- A leaf `<t>text</t>` element. -/
def leaf (t : String) (x : String) : Element := .mk t (some x) []

/-- A sample persisted policy tree `<policy><id>5</id><name>p</name></policy>`. -/
def samplePolicy : Element :=
  .mk "policy" none [leaf "id" "5", leaf "name" "p"]

/-- A list-shaped response document with a `size` marker child. -/
def sampleSizeDoc : Element :=
  .mk "policies" none [leaf "size" "1",
    .mk "policy" none [leaf "id" "9", leaf "name" "p"]]

/-- A single-object response document (no `size` child). -/
def sampleSingleDoc : Element :=
  .mk "policy" none [leaf "id" "9", leaf "name" "p", leaf "enabled" "true"]

/-- A session whose every request succeeds with fixed data. -/
def happySession : Session :=
  { respGet := fun _ => .ok sampleSingleDoc,
    respPut := fun _ => none,
    respPost := fun _ => .ok 9,
    respDelete := fun _ => none }

/-- A session whose PUT fails with status 409 (a non-404 failure). -/
def conflictSession : Session :=
  { happySession with
    respPut := fun _ => some (.putError (some 409) none) }

/-- A session for the create-fallback: PUT fails with 404, POST succeeds
with id 9, and the follow-up GET of the created id returns a list-shaped
document (carrying a `size` child). -/
def fallbackListSession : Session :=
  { respGet := fun u => if u = "/policies/id/9" then .ok sampleSizeDoc
                        else .ok sampleSingleDoc,
    respPut := fun _ => some (.putError (some 404) none),
    respPost := fun _ => .ok 9,
    respDelete := fun _ => none }

/-- A session for the ordinary create-fallback: PUT fails with 404, POST
succeeds, and the re-fetch returns a single-object document. -/
def fallbackSession : Session :=
  { respGet := fun _ => .ok sampleSingleDoc,
    respPut := fun _ => some (.putError (some 404) none),
    respPost := fun _ => .ok 9,
    respDelete := fun _ => none }

/-! ## Auxiliary definitions for the claims -/

/-- Whether a factory `data` argument is a fetch-style lookup
(`None`, `int` or `str`), as opposed to an `Element` or other value. -/
def isFetchData : Data → Bool
  | .pyNone => true
  | .int _ => true
  | .str _ => true
  | _ => false

/-- Whether a call is a POST. -/
def isPost : Call → Bool
  | .post _ => true
  | _ => false

/-- Number of POST requests in a trace. -/
def countPosts (calls : List Call) : Nat :=
  calls.countP isPost

/-- Modelled from the spec: the spec's removal-matching rule for
`remove_child` — "Removal matches by identifier first, then by name":
children matching by identifier are preferred, and only when no child
matches by identifier is the key compared against names.  (The source's
`remove_object_from_list` instead filters in one combined pass; this
definition exists to compare the two.) -/
def specRemoveMatches (listElem : Element) (key : String) : List Element :=
  let byId := listElem.children.filter (fun item => findtextPath item ["id"] = some key)
  if byId.isEmpty then
    listElem.children.filter (fun item => findtextPath item ["name"] = some key)
  else byId

/-- A list element whose first child has id `"1"` and whose second child
has name `"1"`: the key `"1"` matches the first by identifier and the
second by name. -/
def ambiguousList : Element :=
  .mk "computers" none
    [.mk "computer" none [leaf "id" "1", leaf "name" "foo"],
     .mk "computer" none [leaf "id" "2", leaf "name" "1"]]

/-- A session whose GETs return the list-shaped `sampleSizeDoc`. -/
def sizeSession : Session :=
  { respGet := fun _ => .ok sampleSizeDoc,
    respPut := fun _ => none,
    respPost := fun _ => .ok 9,
    respDelete := fun _ => none }

/-- A descriptor with every capability flag cleared. -/
def noCapCls : ObjClass :=
  { url := "/nocap", canList := false, canGet := false, canPut := false,
    canPost := false, canDelete := false }

/-! ## Lemmas: decimal parsing round-trip -/

theorem natDigitsRev_eq_digits (fuel n : Nat) (h : n ≤ fuel) :
    natDigitsRev fuel n = Nat.digits 10 n := by
  induction fuel generalizing n with
  | zero =>
    have hn : n = 0 := Nat.le_zero.mp h
    subst hn
    simp [natDigitsRev]
  | succ fuel ih =>
    by_cases hn : n = 0
    · subst hn
      simp [natDigitsRev]
    · have hpos : 0 < n := Nat.pos_of_ne_zero hn
      rw [Nat.digits_def' (by norm_num : (1 : Nat) < 10) hpos]
      unfold natDigitsRev
      rw [if_neg hn, ih (n / 10)
        (by have := Nat.div_lt_self hpos (by norm_num : 1 < 10); omega)]

theorem natDigitsBE_eq_digits (n : Nat) :
    natDigitsBE n = ((Nat.digits 10 n).map digitChar).reverse := by
  unfold natDigitsBE
  rw [natDigitsRev_eq_digits n n le_rfl]

theorem parseNatChars_append (xs ys : List Char) (acc : Nat) :
    parseNatChars (xs ++ ys) acc =
      (parseNatChars xs acc).bind (fun a => parseNatChars ys a) := by
  induction xs generalizing acc with
  | nil => simp [parseNatChars]
  | cons c cs ih =>
    simp only [List.cons_append, parseNatChars]
    cases charDigit c with
    | some d => simp [ih]
    | none => simp

theorem charDigit_digitChar (d : Nat) (h : d < 10) :
    charDigit (digitChar d) = some d := by
  interval_cases d <;> decide

theorem digitChar_not_space (d : Nat) (h : d < 10) :
    isPySpace (digitChar d) = false := by
  interval_cases d <;> decide

theorem parseNatChars_digits (ds : List Nat) (h : ∀ d ∈ ds, d < 10) (acc : Nat) :
    parseNatChars ((ds.map digitChar).reverse) acc =
      some (Nat.ofDigits 10 ds + acc * 10 ^ ds.length) := by
  induction ds generalizing acc with
  | nil => simp [parseNatChars, Nat.ofDigits]
  | cons d ds ih =>
    have hd : d < 10 := h d (List.mem_cons_self d ds)
    have hds : ∀ x ∈ ds, x < 10 := fun x hx => h x (List.mem_cons_of_mem d hx)
    simp only [List.map_cons, List.reverse_cons]
    rw [parseNatChars_append, ih hds acc]
    simp only [Option.some_bind, parseNatChars, charDigit_digitChar d hd,
      List.length_cons, Nat.ofDigits_cons]
    congr 1
    ring

theorem stripPySpaces_of_no_space (cs : List Char)
    (h : ∀ c ∈ cs, isPySpace c = false) : stripPySpaces cs = cs := by
  have h1 : cs.dropWhile isPySpace = cs := by
    cases cs with
    | nil => rfl
    | cons c t =>
      simp [List.dropWhile, h c (List.mem_cons_self c t)]
  have h2 : ∀ c ∈ cs.reverse, isPySpace c = false := by
    intro c hc; exact h c (List.mem_reverse.mp hc)
  have h3 : cs.reverse.dropWhile isPySpace = cs.reverse := by
    cases hrev : cs.reverse with
    | nil => rfl
    | cons c t =>
      have : isPySpace c = false := by
        apply h2; rw [hrev]; exact List.mem_cons_self c t
      simp [List.dropWhile, this]
  unfold stripPySpaces
  rw [h1, h3, List.reverse_reverse]

theorem natDigitsBE_no_space (n : Nat) :
    ∀ c ∈ natDigitsBE n, isPySpace c = false := by
  intro c hc
  rw [natDigitsBE_eq_digits] at hc
  rw [List.mem_reverse, List.mem_map] at hc
  obtain ⟨d, hd, rfl⟩ := hc
  exact digitChar_not_space d (Nat.digits_lt_base (by norm_num) hd)

theorem natDigitsBE_all_digits (n : Nat) :
    ∀ c ∈ natDigitsBE n, ∃ d, d < 10 ∧ charDigit c = some d := by
  intro c hc
  rw [natDigitsBE_eq_digits] at hc
  rw [List.mem_reverse, List.mem_map] at hc
  obtain ⟨d, hd, rfl⟩ := hc
  have : d < 10 := Nat.digits_lt_base (by norm_num) hd
  exact ⟨d, this, charDigit_digitChar d this⟩

theorem parseDigits_natDigitsBE (n : Nat) (hn : n ≠ 0) :
    parseDigits (natDigitsBE n) = some n := by
  have hne : (Nat.digits 10 n) ≠ [] := Nat.digits_ne_nil_iff_ne_zero.mpr hn
  have hlt : ∀ d ∈ Nat.digits 10 n, d < 10 :=
    fun d hd => Nat.digits_lt_base (by norm_num) hd
  have hbe : natDigitsBE n ≠ [] := by
    rw [natDigitsBE_eq_digits]
    simp [hne]
  obtain ⟨c, t, hh⟩ := List.exists_cons_of_ne_nil hbe
  rw [hh]
  show parseNatChars (c :: t) 0 = some n
  rw [← hh, natDigitsBE_eq_digits]
  rw [parseNatChars_digits _ hlt 0]
  simp [Nat.ofDigits_digits]

theorem pyParseInt_pyStrNat (n : Nat) : pyParseInt (pyStrNat n) = some (n : Int) := by
  by_cases hn : n = 0
  · subst hn; decide
  · unfold pyStrNat
    rw [if_neg hn]
    unfold pyParseInt
    have hdata : (String.mk (natDigitsBE n)).data = natDigitsBE n := rfl
    rw [hdata, stripPySpaces_of_no_space _ (natDigitsBE_no_space n)]
    cases hh : natDigitsBE n with
    | nil =>
      exfalso
      have hne : (Nat.digits 10 n) ≠ [] := Nat.digits_ne_nil_iff_ne_zero.mpr hn
      rw [natDigitsBE_eq_digits] at hh
      simp [hne] at hh
    | cons c t =>
      have hc : ∃ d, d < 10 ∧ charDigit c = some d := by
        apply natDigitsBE_all_digits n
        rw [hh]; exact List.mem_cons_self c t
      obtain ⟨d, _, hcd⟩ := hc
      have hplus : c ≠ '+' := by
        intro h; rw [h] at hcd; simp [charDigit] at hcd
      have hminus : c ≠ '-' := by
        intro h; rw [h] at hcd; simp [charDigit] at hcd
      simp only [pyParseIntCore, if_neg hplus, if_neg hminus]
      rw [← hh, parseDigits_natDigitsBE n hn]
      rfl

theorem pyParseInt_pyStrInt (i : Int) : pyParseInt (pyStrInt i) = some i := by
  by_cases hi : i < 0
  · unfold pyStrInt
    rw [if_pos hi]
    unfold pyParseInt
    have hdata : ("-" ++ pyStrNat i.natAbs).data = '-' :: (pyStrNat i.natAbs).data := by
      rw [String.data_append]; rfl
    have habs : i.natAbs ≠ 0 := by
      intro h
      have := Int.natAbs_eq_zero.mp h
      omega
    have hnosp : ∀ c ∈ '-' :: (pyStrNat i.natAbs).data, isPySpace c = false := by
      intro c hc
      rcases List.mem_cons.mp hc with h | h
      · subst h; decide
      · unfold pyStrNat at h
        rw [if_neg habs] at h
        exact natDigitsBE_no_space i.natAbs c h
    rw [hdata, stripPySpaces_of_no_space _ hnosp]
    have hpd : (pyStrNat i.natAbs).data = natDigitsBE i.natAbs := by
      unfold pyStrNat; rw [if_neg habs]
    show (parseDigits (pyStrNat i.natAbs).data).map (fun n => -(n : Int)) = some i
    rw [hpd, parseDigits_natDigitsBE i.natAbs habs]
    show some (-(i.natAbs : Int)) = some i
    congr 1
    omega
  · unfold pyStrInt
    rw [if_neg hi]
    rw [pyParseInt_pyStrNat]
    congr 1
    omega

/-! ## Claim C7: integer / numeric-string lookup equivalence -/

/-- Claim C7: for every resource type descriptor and every integer `n`,
the router computes the same URL for the integer lookup `n` and for the
string lookup `str(n)`: `get_url(cls, n)` equals `get_url(cls, str(n))`
(and the two calls behave identically on `JSSFlatObject` types as well,
where both raise the same error). -/
theorem claim_C7_int_str_url_equivalence (cls : ObjClass) (n : Int) :
    getUrl cls (.int n) = getUrl cls (.str (pyStrInt n)) := by
  unfold getUrl
  by_cases hf : cls.isFlat
  · simp [hf, fmtLookup]
  · simp [hf, pyParseInt_pyStrInt]

/-! ## Claim C8: base_url never keeps a trailing slash -/

theorem head?_dropWhile_false {α} (p : α → Bool) (l : List α) (a : α)
    (h : (l.dropWhile p).head? = some a) : p a = false := by
  induction l with
  | nil => simp [List.dropWhile] at h
  | cons x xs ih =>
    by_cases hx : p x
    · rw [List.dropWhile_cons_of_pos hx] at h
      exact ih h
    · rw [List.dropWhile_cons_of_neg hx] at h
      simp at h
      rw [← h]
      exact Bool.not_eq_true _ ▸ (by simpa using hx)

/-- Claim C8: after any assignment to `JSS.base_url` the stored value
never ends with `'/'` (the setter strips every trailing slash), and the
request root `JSS._url` is formed by appending the literal
`"/JSSResource"`, so exactly one slash separates the two parts. -/
theorem claim_C8_base_url_no_trailing_slash (url : String) :
    (setBaseUrl url).data.getLast? ≠ some '/' ∧
    jssApiUrl (setBaseUrl url) = setBaseUrl url ++ "/JSSResource" := by
  constructor
  · intro h
    unfold setBaseUrl pyRstrip at h
    have hdata : (String.mk ((url.data.reverse.dropWhile (fun x => x = '/')).reverse)).data
        = (url.data.reverse.dropWhile (fun x => x = '/')).reverse := rfl
    rw [hdata, List.getLast?_reverse] at h
    have := head?_dropWhile_false _ _ _ h
    simp at this
  · unfold jssApiUrl
    rw [String.append_assoc]
    rfl

/-! ## Claim C9: lookups with multiple separators -/

theorem parseNatChars_some_digit (cs : List Char) (acc n : Nat)
    (h : parseNatChars cs acc = some n) : ∀ c ∈ cs, (charDigit c).isSome := by
  induction cs generalizing acc with
  | nil => intro c hc; simp at hc
  | cons x xs ih =>
    intro c hc
    simp only [parseNatChars] at h
    cases hx : charDigit x with
    | none => rw [hx] at h; simp at h
    | some d =>
      rw [hx] at h
      rcases List.mem_cons.mp hc with rfl | hc2
      · simp [hx]
      · exact ih _ h c hc2

theorem parseDigits_some_digit (cs : List Char) (n : Nat)
    (h : parseDigits cs = some n) : ∀ c ∈ cs, (charDigit c).isSome := by
  cases cs with
  | nil => intro c hc; simp at hc
  | cons x xs => exact parseNatChars_some_digit (x :: xs) 0 n h

theorem pyParseIntCore_some_shape (cs : List Char) (i : Int)
    (h : pyParseIntCore cs = some i) :
    ∀ c ∈ cs, (charDigit c).isSome ∨ c = '+' ∨ c = '-' := by
  cases cs with
  | nil => intro c hc; simp at hc
  | cons x rest =>
    intro c hc
    by_cases hx : x = '+'
    · subst hx
      simp only [pyParseIntCore, if_pos rfl] at h
      cases hp : parseDigits rest with
      | none => rw [hp] at h; simp at h
      | some m =>
        rcases List.mem_cons.mp hc with rfl | hc2
        · right; left; rfl
        · exact Or.inl (parseDigits_some_digit rest m hp c hc2)
    · by_cases hx2 : x = '-'
      · subst hx2
        simp only [pyParseIntCore, if_neg (by decide : ¬('-' = '+')), if_pos rfl] at h
        cases hp : parseDigits rest with
        | none => rw [hp] at h; simp at h
        | some m =>
          rcases List.mem_cons.mp hc with rfl | hc2
          · right; right; rfl
          · exact Or.inl (parseDigits_some_digit rest m hp c hc2)
      · simp only [pyParseIntCore, if_neg hx, if_neg hx2] at h
        cases hp : parseDigits (x :: rest) with
        | none => rw [hp] at h; simp at h
        | some m => exact Or.inl (parseDigits_some_digit _ m hp c hc)

theorem mem_strip_of_not_space (l : List Char) (c : Char) (hc : c ∈ l)
    (hsp : isPySpace c = false) : c ∈ stripPySpaces l := by
  have step : ∀ (m : List Char), c ∈ m → c ∈ m.dropWhile isPySpace := by
    intro m hm
    have hsplit := List.takeWhile_append_dropWhile isPySpace m
    rw [← hsplit] at hm
    rcases List.mem_append.mp hm with h | h
    · exact absurd (List.mem_takeWhile_imp h) (by simp [hsp])
    · exact h
  unfold stripPySpaces
  rw [List.mem_reverse]
  exact step _ (List.mem_reverse.mpr (step _ hc))

theorem pyParseInt_none_of_mem_eq (s : String) (h : '=' ∈ s.data) :
    pyParseInt s = none := by
  cases hp : pyParseInt s with
  | none => rfl
  | some i =>
    exfalso
    unfold pyParseInt at hp
    have hmem : '=' ∈ stripPySpaces s.data :=
      mem_strip_of_not_space _ _ h (by decide)
    rcases pyParseIntCore_some_shape _ i hp '=' hmem with h1 | h1 | h1
    · rw [show charDigit '=' = none from by decide] at h1
      simp at h1
    · exact absurd h1 (by decide)
    · exact absurd h1 (by decide)

theorem splitChars_ne_nil (sep : Char) (l : List Char) :
    splitChars sep l ≠ [] := by
  cases l with
  | nil => simp [splitChars]
  | cons x xs =>
    simp only [splitChars]
    cases splitChars sep xs with
    | nil => simp
    | cons p ps => by_cases hx : x = sep <;> simp [hx]

theorem splitChars_length (sep : Char) (l : List Char) :
    (splitChars sep l).length = l.count sep + 1 := by
  induction l with
  | nil => simp [splitChars]
  | cons x xs ih =>
    simp only [splitChars]
    cases hs : splitChars sep xs with
    | nil => exact absurd hs (splitChars_ne_nil sep xs)
    | cons p ps =>
      rw [hs] at ih
      by_cases hx : x = sep
      · subst hx
        simp only [if_pos rfl, List.count_cons, beq_self_eq_true, if_true]
        simp at ih ⊢
        omega
      · have hbeq : (x == sep) = false := by simp [hx]
        simp [hx, List.count_cons, hbeq] at ih ⊢
        omega

theorem pySplit_length (sep : Char) (s : String) :
    (pySplit sep s).length = countChar sep s + 1 := by
  unfold pySplit countChar
  rw [List.length_map, splitChars_length]

theorem charInString_iff_count (c : Char) (s : String) :
    charInString c s = true ↔ 0 < countChar c s := by
  unfold charInString countChar
  rw [List.any_eq_true]
  constructor
  · rintro ⟨x, hx, hxc⟩
    simp at hxc
    subst hxc
    exact List.count_pos_iff.mpr hx
  · intro h
    exact ⟨c, List.count_pos_iff.mp h, by simp⟩

theorem getUrl_str_int_branch (cls : ObjClass) (hf : cls.isFlat = false)
    (s : String) (m : Int) (hp : pyParseInt s = some m) :
    getUrl cls (.str s) = .ok (cls.url ++ cls.idUrl ++ pyStrInt m) := by
  unfold getUrl
  rw [if_neg (by simp [hf])]
  simp [hp]

theorem getUrl_str_eq_branch (cls : ObjClass) (hf : cls.isFlat = false)
    (s : String) (hp : pyParseInt s = none) (hin : charInString '=' s = true) :
    getUrl cls (.str s) =
      (match pySplit '=' s with
       | [k, v] =>
         match cls.searchTypes.lookup k with
         | some seg => .ok (cls.url ++ seg ++ v)
         | none => .error (.unsupportedSearchMethod
             ("This object cannot be queried by " ++ k ++ "."))
       | _ => .error (.valueError "too many values to unpack")) := by
  unfold getUrl
  rw [if_neg (by simp [hf])]
  simp [hp, hin]

theorem getUrl_str_default_branch (cls : ObjClass) (hf : cls.isFlat = false)
    (s : String) (hp : pyParseInt s = none) (hin : charInString '=' s = false) :
    getUrl cls (.str s) =
      (match cls.searchTypes.lookup cls.defaultSearch with
       | some seg => .ok (cls.url ++ seg ++ s)
       | none => .error .keyError) := by
  unfold getUrl
  rw [if_neg (by simp [hf])]
  simp [hp, hin]

/-- Claim C9: on a non-flat resource type, a string lookup containing two
or more `'='` characters makes `get_url` raise the unpacking `ValueError`
(`key, value = data.split("=")` with three or more parts), never
`UnsupportedSearchKeyError`; and `UnsupportedSearchKeyError`
(`JSSUnsupportedSearchMethodError`) arises only for lookups with exactly
one `'='` whose key is not in the class search-key table. -/
theorem claim_C9_multi_eq_unpacking_error (cls : ObjClass)
    (hf : cls.isFlat = false) (s : String) :
    (2 ≤ countChar '=' s →
      getUrl cls (.str s) = .error (.valueError "too many values to unpack")) ∧
    (∀ m, getUrl cls (.str s) = .error (.unsupportedSearchMethod m) →
      countChar '=' s = 1 ∧
      ∃ k v, pySplit '=' s = [k, v] ∧ cls.searchTypes.lookup k = none) := by
  constructor
  · intro h2
    have hmem : '=' ∈ s.data := by
      have : 0 < countChar '=' s := by omega
      exact List.count_pos_iff.mp this
    have hp : pyParseInt s = none := pyParseInt_none_of_mem_eq s hmem
    have hin : charInString '=' s = true :=
      (charInString_iff_count '=' s).mpr (by omega)
    rw [getUrl_str_eq_branch cls hf s hp hin]
    have hlen : (pySplit '=' s).length = countChar '=' s + 1 := pySplit_length '=' s
    cases hsp : pySplit '=' s with
    | nil => rfl
    | cons a t1 =>
      cases t1 with
      | nil => rfl
      | cons b t2 =>
        cases t2 with
        | nil =>
          exfalso
          rw [hsp] at hlen
          simp at hlen
          omega
        | cons c t3 => rfl
  · intro m hm
    cases hpp : pyParseInt s with
    | some m2 =>
      rw [getUrl_str_int_branch cls hf s m2 hpp] at hm
      simp at hm
    | none =>
      by_cases hin : charInString '=' s = true
      · rw [getUrl_str_eq_branch cls hf s hpp hin] at hm
        have hlen : (pySplit '=' s).length = countChar '=' s + 1 :=
          pySplit_length '=' s
        cases hsp : pySplit '=' s with
        | nil => rw [hsp] at hm; simp at hm
        | cons a t1 =>
          cases t1 with
          | nil => rw [hsp] at hm; simp at hm
          | cons b t2 =>
            cases t2 with
            | nil =>
              rw [hsp] at hm
              have hm2 : (match cls.searchTypes.lookup a with
                  | some seg =>
                    (Except.ok (cls.url ++ seg ++ b) : Except PyErr String)
                  | none => .error (.unsupportedSearchMethod
                      ("This object cannot be queried by " ++ a ++ "."))) =
                  .error (.unsupportedSearchMethod m) := hm
              cases hlk : cls.searchTypes.lookup a with
              | some seg => rw [hlk] at hm2; simp at hm2
              | none =>
                refine ⟨?_, a, b, rfl, hlk⟩
                rw [hsp] at hlen
                simp at hlen
                omega
            | cons c t3 => rw [hsp] at hm; simp at hm
      · rw [getUrl_str_default_branch cls hf s hpp (by simpa using hin)] at hm
        cases hlk : cls.searchTypes.lookup cls.defaultSearch with
        | some seg => rw [hlk] at hm; simp at hm
        | none => rw [hlk] at hm; simp at hm

/-- Witness for claim C9 at a concrete input: for the `Computer` class
and the lookup `"name=a=b"` (two `'='` characters), `get_url` raises the
unpacking `ValueError`. -/
theorem claim_C9_witness :
    2 ≤ countChar '=' "name=a=b" ∧
    getUrl Computer (.str "name=a=b") =
      .error (.valueError "too many values to unpack") :=
  ⟨by decide, (claim_C9_multi_eq_unpacking_error Computer rfl "name=a=b").1 (by decide)⟩

/-! ## Claims C3, C4, C5: the factory -/

theorem getUrl_none (cls : ObjClass) : getUrl cls .pyNone = .ok cls.url := by
  unfold getUrl
  by_cases hf : cls.isFlat <;> simp [hf]

theorem normalizeSubset_error_iff (sub : SubsetArg) (e : PyErr)
    (h : normalizeSubset sub = .error e) : sub = .other := by
  cases sub with
  | pyNone => simp [normalizeSubset, subsetTruthy] at h
  | list l => simp [normalizeSubset] at h
  | str s =>
    unfold normalizeSubset at h
    by_cases hs : subsetTruthy (.str s) <;> simp [hs] at h
  | other => rfl

/-- Claim C3 (code-bug evidence): when the factory's `data` argument is
an already-parsed `Element`, `get_object` does not route to the create
path — the create branch is commented out in the source, so the call
returns Python `None` and issues no transport request at all, although
the method's own docstring says an `Element` creates a new object. -/
theorem claim_C3_element_data_returns_none (cls : ObjClass) (e : Element)
    (sess : Session) :
    factoryGetObject cls (.elem e) .pyNone sess = (.ok .pyNone, []) := rfl

/-- Claim C4: every operation on a resource type whose capability flags
do not permit it — a factory fetch without `can_get`, a `delete()`
without `can_delete`, a `save()` with neither `can_put` nor `can_post` —
fails with `MethodNotAllowedError` and issues no transport call
(the subset argument must merely be well-formed, i.e. not a truthy
non-list non-string value, which would raise `TypeError` instead). -/
theorem claim_C4_capability_gate (cls : ObjClass) (self : Element)
    (sess : Session) :
    (cls.canGet = false → ∀ (d : Data) (sub : SubsetArg),
      isFetchData d = true → sub ≠ .other →
      factoryGetObject cls d sub sess = (.error .methodNotAllowed, [])) ∧
    (cls.canDelete = false →
      deleteObj cls self sess = (.error .methodNotAllowed, [])) ∧
    (cls.canPut = false → cls.canPost = false →
      save cls self sess = (.error .methodNotAllowed, self, [])) := by
  refine ⟨?_, ?_, ?_⟩
  · intro hg d sub hd hsub
    unfold factoryGetObject
    cases hn : normalizeSubset sub with
    | error e => exact absurd (normalizeSubset_error_iff sub e hn) hsub
    | ok sub2 =>
      cases d with
      | pyNone => rw [getUrl_none]; simp [hg]
      | int n => simp [hg]
      | str s => simp [hg]
      | elem e => simp [isFetchData] at hd
      | other => simp [isFetchData] at hd
  · intro hd
    unfold deleteObj
    simp [hd]
  · intro hp hq
    unfold save
    simp [hp, hq]

/-- Witness for claim C4 at a concrete input: on a descriptor with every
capability cleared, a `None` fetch, a delete and a save each fail with
`MethodNotAllowedError` and an empty call trace. -/
theorem claim_C4_witness :
    factoryGetObject noCapCls .pyNone .pyNone happySession =
      (.error .methodNotAllowed, []) ∧
    deleteObj noCapCls samplePolicy happySession =
      (.error .methodNotAllowed, []) ∧
    save noCapCls samplePolicy happySession =
      (.error .methodNotAllowed, samplePolicy, []) := by
  obtain ⟨h1, h2, h3⟩ := claim_C4_capability_gate noCapCls samplePolicy happySession
  exact ⟨h1 rfl .pyNone .pyNone rfl (by intro h; cases h), h2 rfl, h3 rfl rfl⟩

/-- Claim C5: for a resource type with `Get` but not `List`, a factory
lookup with `data=None` always produces a single object (never a
collection); and on the individual-lookup path the single-vs-collection
classification of a successful response is decided by the document shape
(presence of a `size` child), not by any request-level flag. -/
theorem claim_C5_get_without_list_single (cls : ObjClass) (sess : Session)
    (hg : cls.canGet = true) :
    (cls.canList = false →
      factoryGetObject cls .pyNone .pyNone sess =
        (match sess.respGet cls.url with
         | .ok e => (.ok (.object (mkJssObject e)), [.get cls.url])
         | .error err => (.error err, [.get cls.url]))) ∧
    (cls.canList = false → ∀ r,
      (factoryGetObject cls .pyNone .pyNone sess).1 = .ok r →
      r.isList = false) ∧
    (∀ s url doc, getUrl cls (.str s) = .ok url →
      sess.respGet url = .ok doc →
      (factoryGetObject cls (.str s) .pyNone sess).1 =
        (if (findPath doc ["size"]).isSome then
          .ok (.list ((doc.children.filter (fun item => item.tag ≠ "size")).map
            listDataOf))
         else .ok (.object (mkJssObject doc)))) := by
  have heq : cls.canList = false →
      factoryGetObject cls .pyNone .pyNone sess =
        (match sess.respGet cls.url with
         | .ok e => (.ok (.object (mkJssObject e)), [.get cls.url])
         | .error err => (.error err, [.get cls.url])) := by
    intro hl
    unfold factoryGetObject
    rw [show normalizeSubset .pyNone = .ok .pyNone from rfl, getUrl_none]
    simp only [hl, hg, Bool.false_and, Bool.and_true, if_false, if_true]
    cases h : sess.respGet cls.url <;> simp [h]
  refine ⟨heq, ?_, ?_⟩
  · intro hl r hr
    rw [heq hl] at hr
    cases h : sess.respGet cls.url with
    | error err => rw [h] at hr; simp at hr
    | ok e =>
      rw [h] at hr
      simp at hr
      rw [← hr]
      rfl
  · intro s url doc hurl hdoc
    unfold factoryGetObject
    rw [show normalizeSubset .pyNone = .ok .pyNone from rfl]
    simp only [hg, if_true]
    rw [hurl]
    show (match sess.respGet url with
      | .error e => ((.error e : Except PyErr GetResult), [Call.get url])
      | .ok xmldata =>
        if (findPath xmldata ["size"]).isSome then
          (.ok (.list ((xmldata.children.filter
            (fun item : Element => item.tag ≠ "size")).map
            listDataOf)), [Call.get url])
        else (.ok (.object (mkJssObject xmldata)), [Call.get url])).1 = _
    rw [hdoc]
    by_cases hsz : (findPath doc ["size"]).isSome <;> simp [hsz]

/-- Witness for claim C5 at concrete inputs: `ActivationCode`
(`Get` without `List`) with `data=None` yields a single object; a
`Computer` name lookup whose response carries a `size` child yields a
collection. -/
theorem claim_C5_witness :
    factoryGetObject ActivationCode .pyNone .pyNone happySession =
      (.ok (.object (mkJssObject sampleSingleDoc)), [.get "/activationcode"]) ∧
    (factoryGetObject Computer (.str "bozo") .pyNone sizeSession).1 =
      .ok (.list [[("id", some "9"), ("name", some "p")]]) := by
  constructor
  · have h := (claim_C5_get_without_list_single ActivationCode happySession rfl).1 rfl
    rw [h]
    rfl
  · have h := (claim_C5_get_without_list_single Computer sizeSession rfl).2.2
      "bozo" "/computers/name/bozo" sampleSizeDoc rfl rfl
    rw [h]
    rfl


/-! ## Claims C1, C2: save, its create fallback, and tree preservation -/

theorem finishSave_trace (self : Element) (ud : UpdatedData) (calls : List Call) :
    (finishSave self ud calls).2.2 = calls := by
  unfold finishSave
  cases h : childrenOfUD ud <;> simp [h]

theorem factory_trace_no_post (cls : ObjClass) (d : Data) (sub : SubsetArg)
    (sess : Session) : countPosts (factoryGetObject cls d sub sess).2 = 0 := by
  unfold factoryGetObject
  repeat' (first | rfl | split | simp only [])

theorem countPosts_append (a b : List Call) :
    countPosts (a ++ b) = countPosts a + countPosts b :=
  List.countP_append _ _ _

theorem not_post_of_countPosts_zero (l : List Call) (h : countPosts l = 0)
    (u : String) : Call.post u ∉ l := by
  intro hm
  have := (List.countP_eq_zero.mp h) _ hm
  simp [isPost] at this

theorem jssPost_trace (cls : ObjClass) (sess : Session) :
    ∃ tail, (jssPost cls (getPostUrl cls) sess).2 =
      .post (getPostUrl cls) :: tail ∧ countPosts tail = 0 := by
  unfold jssPost
  cases hp : sess.respPost (getPostUrl cls) with
  | error e => exact ⟨[], rfl, rfl⟩
  | ok newId =>
    exact ⟨(factoryGetObject cls (.int newId) .pyNone sess).2, rfl,
      factory_trace_no_post cls (.int newId) .pyNone sess⟩

theorem postAndRefill_trace (cls : ObjClass) (self : Element) (sess : Session)
    (pre : List Call) :
    ∃ tail, (postAndRefill cls self sess pre).2.2 =
      pre ++ .post (getPostUrl cls) :: tail ∧ countPosts tail = 0 := by
  obtain ⟨tail, htr, hct⟩ := jssPost_trace cls sess
  unfold postAndRefill
  refine ⟨tail, ?_, hct⟩
  cases hp : (jssPost cls (getPostUrl cls) sess).1 with
  | error e => simp [hp, htr]
  | ok res => simp [hp, htr, finishSave_trace]

theorem postAndRefill_err_tree (cls : ObjClass) (self : Element) (sess : Session)
    (pre : List Call) (e : PyErr)
    (h : (postAndRefill cls self sess pre).1 = .error e) :
    (postAndRefill cls self sess pre).2.1 = self ∨
    (e = .attributeError ∧
      (postAndRefill cls self sess pre).2.1 = clearElem self) := by
  unfold postAndRefill at h ⊢
  cases hp : (jssPost cls (getPostUrl cls) sess).1 with
  | error e2 =>
    simp only [hp] at h ⊢
    left
    trivial
  | ok res =>
    simp only [hp] at h ⊢
    cases res with
    | object oe =>
      exfalso
      have hok : (finishSave self (.factoryRes (.object oe))
          (pre ++ (jssPost cls (getPostUrl cls) sess).2)).1 =
          (.ok () : Except PyErr Unit) := rfl
      rw [hok] at h
      exact Except.noConfusion h
    | list items =>
      right
      have he : (Except.error PyErr.attributeError : Except PyErr Unit) =
          .error e := h
      injection he with h2
      exact ⟨h2.symm, rfl⟩
    | pyNone =>
      right
      have he : (Except.error PyErr.attributeError : Except PyErr Unit) =
          .error e := h
      injection he with h2
      exact ⟨h2.symm, rfl⟩

theorem save_both_false_eq (cls : ObjClass) (self : Element) (sess : Session)
    (hput : cls.canPut = false) (hpost : cls.canPost = false) :
    save cls self sess = (.error .methodNotAllowed, self, []) := by
  unfold save
  simp [hput, hpost]

theorem save_post_only_eq (cls : ObjClass) (self : Element) (sess : Session)
    (hput : cls.canPut = false) (hpost : cls.canPost = true) :
    save cls self sess = postAndRefill cls self sess [] := by
  unfold save
  simp [hput, hpost]

theorem save_canPut_eq (cls : ObjClass) (self : Element) (sess : Session)
    (hput : cls.canPut = true) :
    save cls self sess =
      (match (putTryBody sess (getObjectUrl cls self)).1 with
       | .ok updated => finishSave self (.elem updated)
           (putTryBody sess (getObjectUrl cls self)).2
       | .error e => putExceptDispatch cls self sess
           (putTryBody sess (getObjectUrl cls self)).2 e) := by
  unfold save
  simp [hput]

theorem putTryBody_none (sess : Session) (u : String)
    (h : sess.respPut u = none) :
    putTryBody sess u =
      (match sess.respGet u with
       | .error e => (.error e, [.put u, .get u])
       | .ok upd => (.ok upd, [.put u, .get u])) := by
  unfold putTryBody
  rw [h]

theorem putTryBody_some (sess : Session) (u : String) (pe : PyErr)
    (h : sess.respPut u = some pe) :
    putTryBody sess u = (.error pe, [.put u]) := by
  unfold putTryBody
  rw [h]

/-- Claim C2 counterexample: a concrete failing `save()` that does not
leave the tree unchanged.  With `fallbackListSession` the PUT fails with
404, the fallback POST succeeds, but the re-fetch of the created id
returns a list-shaped document, so the factory hands back a
`JSSObjectList`; `save` then runs `self.clear()` before
`updated_data.getchildren()` raises `AttributeError` — the call fails
*and* the local tree has been emptied. -/
theorem claim_C2_counterexample :
    (save Policy samplePolicy fallbackListSession).1 = .error .attributeError ∧
    (save Policy samplePolicy fallbackListSession).2.1 ≠ samplePolicy := by
  constructor
  · rfl
  · have hs : (save Policy samplePolicy fallbackListSession).2.1 =
        Element.mk "policy" none [] := rfl
    rw [hs]
    intro h
    have h2 := congrArg Element.children h
    simp [samplePolicy, Element.children, leaf] at h2

theorem putExceptDispatch_tree (cls : ObjClass) (self : Element)
    (sess : Session) (calls : List Call) (e r : PyErr)
    (h : (putExceptDispatch cls self sess calls e).1 = .error r) :
    (putExceptDispatch cls self sess calls e).2.1 = self ∨
    (r = .attributeError ∧
      (putExceptDispatch cls self sess calls e).2.1 = clearElem self) := by
  cases e with
  | putError st cause =>
    cases st with
    | none => left; rfl
    | some s =>
      by_cases h404 : s = 404
      · subst h404
        by_cases hpost : cls.canPost = true
        · simp only [putExceptDispatch, if_pos rfl, hpost, if_true] at h ⊢
          exact postAndRefill_err_tree cls self sess calls r h
        · left
          simp only [putExceptDispatch, if_pos rfl, hpost]
          simp
      · left
        simp [putExceptDispatch, h404]
  | getError => left; rfl
  | postError a b => left; rfl
  | deleteError => left; rfl
  | methodNotAllowed => left; rfl
  | unsupportedSearchMethod m => left; rfl
  | valueError m => left; rfl
  | typeError => left; rfl
  | keyError => left; rfl
  | nameError => left; rfl
  | attributeError => left; rfl

/-- Claim C2 (amended): when `save()` fails, the object's local tree is
unchanged — except on the one path where the create fallback has
succeeded but the re-fetched document is list-shaped (or the factory
returned `None`): there the failure is an `AttributeError` raised after
`self.clear()`, and the tree is left cleared. -/
theorem claim_C2_amended_tree_on_failure (cls : ObjClass) (self : Element)
    (sess : Session) (e : PyErr) (h : (save cls self sess).1 = .error e) :
    (save cls self sess).2.1 = self ∨
    (e = .attributeError ∧ (save cls self sess).2.1 = clearElem self) := by
  by_cases hput : cls.canPut = true
  · rw [save_canPut_eq cls self sess hput] at h ⊢
    cases htb : (putTryBody sess (getObjectUrl cls self)).1 with
    | ok upd =>
      try rw [htb] at h
      exact Except.noConfusion
        (show (Except.ok () : Except PyErr Unit) = .error e from h)
    | error pe =>
      try rw [htb] at h
      try rw [htb]
      exact putExceptDispatch_tree cls self sess
        (putTryBody sess (getObjectUrl cls self)).2 pe e h
  · have hput2 : cls.canPut = false := by
      cases hcp : cls.canPut
      · rfl
      · exact absurd hcp hput
    by_cases hpost : cls.canPost = true
    · rw [save_post_only_eq cls self sess hput2 hpost] at h ⊢
      exact postAndRefill_err_tree cls self sess [] e h
    · have hpost2 : cls.canPost = false := by
        cases hcp : cls.canPost
        · rfl
        · exact absurd hcp hpost
      rw [save_both_false_eq cls self sess hput2 hpost2] at h ⊢
      left
      rfl

/-- Witness for the amended claim C2, applying it at the counterexample
input (where `save` fails with `AttributeError`). -/
theorem claim_C2_amended_witness :
    (save Policy samplePolicy fallbackListSession).2.1 = samplePolicy ∨
    (PyErr.attributeError = PyErr.attributeError ∧
      (save Policy samplePolicy fallbackListSession).2.1 =
        clearElem samplePolicy) :=
  claim_C2_amended_tree_on_failure Policy samplePolicy fallbackListSession
    .attributeError rfl

theorem countPosts_put_cons (u : String) (t : List Call) :
    countPosts (Call.put u :: t) = countPosts t := by
  simp [countPosts, List.countP_cons, isPost]

theorem countPosts_post_cons (u : String) (t : List Call) :
    countPosts (Call.post u :: t) = countPosts t + 1 := by
  simp [countPosts, List.countP_cons, isPost]

theorem putExceptDispatch_non404 (cls : ObjClass) (self : Element)
    (sess : Session) (calls : List Call) (st : Nat) (cause : Option PyErr)
    (h404 : st ≠ 404) :
    putExceptDispatch cls self sess calls (.putError (some st) cause) =
      (.error (.putError none (some (.putError (some st) cause))), self,
        calls) := by
  simp [putExceptDispatch, h404]

theorem putExceptDispatch_trace_char (cls : ObjClass) (self : Element)
    (sess : Session) (calls : List Call) (e : PyErr) :
    ∃ suffix, (putExceptDispatch cls self sess calls e).2.2 = calls ++ suffix ∧
      countPosts suffix ≤ 1 ∧
      (∀ u, Call.post u ∈ suffix → u = getPostUrl cls) ∧
      (countPosts suffix = 1 ↔
        (∃ c, e = .putError (some 404) c) ∧ cls.canPost = true) := by
  cases e with
  | putError st cause =>
    cases st with
    | none =>
      exact ⟨[], by simp [putExceptDispatch], by simp [countPosts],
        by simp, by simp [countPosts]⟩
    | some s =>
      by_cases h404 : s = 404
      · subst h404
        by_cases hpost : cls.canPost = true
        · obtain ⟨tail, htr, hct⟩ := postAndRefill_trace cls self sess calls
          refine ⟨.post (getPostUrl cls) :: tail, ?_, ?_, ?_, ?_⟩
          · rw [show putExceptDispatch cls self sess calls
                (.putError (some 404) cause) =
                postAndRefill cls self sess calls from by
              simp [putExceptDispatch, hpost]]
            rw [htr]
          · rw [countPosts_post_cons]
            omega
          · intro u' hm
            rcases List.mem_cons.mp hm with h1 | h1
            · simpa using h1
            · exact absurd h1 (not_post_of_countPosts_zero tail hct u')
          · rw [countPosts_post_cons]
            constructor
            · intro _
              exact ⟨⟨cause, rfl⟩, hpost⟩
            · intro _
              omega
        · refine ⟨[], by simp [putExceptDispatch, hpost], by simp [countPosts],
            by simp, ?_⟩
          simp [countPosts, hpost]
      · refine ⟨[], by simp [putExceptDispatch, h404], by simp [countPosts],
          by simp, ?_⟩
        simp [countPosts, h404]
  | getError =>
    exact ⟨[], by simp [putExceptDispatch], by simp [countPosts],
      by simp, by simp [countPosts]⟩
  | postError a b =>
    exact ⟨[], by simp [putExceptDispatch], by simp [countPosts],
      by simp, by simp [countPosts]⟩
  | deleteError =>
    exact ⟨[], by simp [putExceptDispatch], by simp [countPosts],
      by simp, by simp [countPosts]⟩
  | methodNotAllowed =>
    exact ⟨[], by simp [putExceptDispatch], by simp [countPosts],
      by simp, by simp [countPosts]⟩
  | unsupportedSearchMethod m =>
    exact ⟨[], by simp [putExceptDispatch], by simp [countPosts],
      by simp, by simp [countPosts]⟩
  | valueError m =>
    exact ⟨[], by simp [putExceptDispatch], by simp [countPosts],
      by simp, by simp [countPosts]⟩
  | typeError =>
    exact ⟨[], by simp [putExceptDispatch], by simp [countPosts],
      by simp, by simp [countPosts]⟩
  | keyError =>
    exact ⟨[], by simp [putExceptDispatch], by simp [countPosts],
      by simp, by simp [countPosts]⟩
  | nameError =>
    exact ⟨[], by simp [putExceptDispatch], by simp [countPosts],
      by simp, by simp [countPosts]⟩
  | attributeError =>
    exact ⟨[], by simp [putExceptDispatch], by simp [countPosts],
      by simp, by simp [countPosts]⟩

/-- Claim C1 counterexample: a PUT failure with a non-404 status is *not*
surfaced unmodified.  With `conflictSession` the transport raises
`JSSPutError` with status 409; `save` re-raises `JSSPutError(put_error)`,
a fresh exception wrapping the original (whose `status_code` attribute is
no longer set), which differs from the error the transport produced. -/
theorem claim_C1_counterexample :
    conflictSession.respPut (getObjectUrl Policy samplePolicy) =
      some (.putError (some 409) none) ∧
    (save Policy samplePolicy conflictSession).1 =
      .error (.putError none (some (.putError (some 409) none))) ∧
    (Except.error (.putError none (some (.putError (some 409) none))) :
        Except PyErr Unit) ≠
      .error (.putError (some 409) none) := by
  refine ⟨rfl, rfl, ?_⟩
  intro h
  simp at h

/-- Claim C1 (amended): for a type that supports update, `save()` first
issues a PUT to the object's own resource URL; exactly one POST — to the
create URL (id 0) — is attempted if and only if that PUT (or, in
principle, the follow-up GET, which by `hG` only raises get-errors)
failed with a `JSSPutError` of status 404 and the type supports create;
and a PUT failure with any other status is surfaced as a fresh
`JSSPutError` wrapping the original (not unmodified), with no create
attempt and no retry. -/
theorem claim_C1_amended_put_first_create_fallback (cls : ObjClass)
    (self : Element) (sess : Session) (hput : cls.canPut = true)
    (hG : ∀ u e, sess.respGet u = .error e → e = .getError) :
    (save cls self sess).2.2.head? = some (.put (getObjectUrl cls self)) ∧
    countPosts (save cls self sess).2.2 ≤ 1 ∧
    (∀ u, Call.post u ∈ (save cls self sess).2.2 → u = getPostUrl cls) ∧
    (countPosts (save cls self sess).2.2 = 1 ↔
      (∃ c, sess.respPut (getObjectUrl cls self) =
        some (.putError (some 404) c)) ∧ cls.canPost = true) ∧
    (∀ st c, sess.respPut (getObjectUrl cls self) =
        some (.putError (some st) c) → st ≠ 404 →
      (save cls self sess).1 =
        .error (.putError none (some (.putError (some st) c))) ∧
      countPosts (save cls self sess).2.2 = 0) := by
  cases hrp : sess.respPut (getObjectUrl cls self) with
  | none =>
    have htb := putTryBody_none sess (getObjectUrl cls self) hrp
    cases hrg : sess.respGet (getObjectUrl cls self) with
    | ok upd =>
      have htb2 : putTryBody sess (getObjectUrl cls self) = (.ok upd,
          [.put (getObjectUrl cls self), .get (getObjectUrl cls self)]) := by
        rw [htb, hrg]
      have hs : save cls self sess = finishSave self (.elem upd)
          [.put (getObjectUrl cls self), .get (getObjectUrl cls self)] := by
        rw [save_canPut_eq cls self sess hput, htb2]
      have ht : (save cls self sess).2.2 =
          [.put (getObjectUrl cls self), .get (getObjectUrl cls self)] := by
        rw [hs, finishSave_trace]
      refine ⟨by rw [ht]; rfl, by rw [ht]; exact Nat.zero_le 1, ?_, ?_, ?_⟩
      · intro u' hm
        rw [ht] at hm
        simp at hm
      · rw [ht]
        have h0 : countPosts [Call.put (getObjectUrl cls self),
            Call.get (getObjectUrl cls self)] = 0 := rfl
        rw [h0]
        simp
      · intro st c hst
        exact absurd hst (by simp)
    | error ge =>
      have hge := hG _ _ hrg
      subst hge
      have htb2 : putTryBody sess (getObjectUrl cls self) =
          (.error .getError,
          [.put (getObjectUrl cls self), .get (getObjectUrl cls self)]) := by
        rw [htb, hrg]
      have hs : save cls self sess = (.error .getError, self,
          [.put (getObjectUrl cls self), .get (getObjectUrl cls self)]) := by
        rw [save_canPut_eq cls self sess hput, htb2]
        rfl
      have ht : (save cls self sess).2.2 =
          [.put (getObjectUrl cls self), .get (getObjectUrl cls self)] := by
        rw [hs]
      refine ⟨by rw [ht]; rfl, by rw [ht]; exact Nat.zero_le 1, ?_, ?_, ?_⟩
      · intro u' hm
        rw [ht] at hm
        simp at hm
      · rw [ht]
        have h0 : countPosts [Call.put (getObjectUrl cls self),
            Call.get (getObjectUrl cls self)] = 0 := rfl
        rw [h0]
        simp
      · intro st c hst
        exact absurd hst (by simp)
  | some pe =>
    have htb2 := putTryBody_some sess (getObjectUrl cls self) pe hrp
    have hs : save cls self sess =
        putExceptDispatch cls self sess [.put (getObjectUrl cls self)] pe := by
      rw [save_canPut_eq cls self sess hput, htb2]
    obtain ⟨suffix, htr, hle, hmem, hiff⟩ :=
      putExceptDispatch_trace_char cls self sess
        [.put (getObjectUrl cls self)] pe
    have ht : (save cls self sess).2.2 =
        Call.put (getObjectUrl cls self) :: suffix := by
      rw [hs, htr]
      rfl
    have hcp : countPosts (Call.put (getObjectUrl cls self) :: suffix) =
        countPosts suffix := countPosts_put_cons _ _
    refine ⟨by rw [ht]; rfl, ?_, ?_, ?_, ?_⟩
    · rw [ht, hcp]
      exact hle
    · intro u' hm
      rw [ht] at hm
      rcases List.mem_cons.mp hm with h1 | h1
      · exact absurd h1 (by simp)
      · exact hmem u' h1
    · rw [ht, hcp, hiff]
      simp
    · intro st c hst h404
      injection hst with hst2
      subst hst2
      constructor
      · rw [hs, putExceptDispatch_non404 cls self sess _ st c h404]
      · rw [ht]
        have h1 : ¬(countPosts suffix = 1) := by
          rw [hiff]
          rintro ⟨⟨c2, hc2⟩, _⟩
          injection hc2 with a b
          injection a with a2
          exact h404 a2
        omega

/-- Witness for the amended claim C1: with a session whose PUT fails
with 404 and whose POST succeeds, `save` on a `Policy` first PUTs to the
object URL and issues exactly one POST. -/
theorem claim_C1_amended_witness :
    (save Policy samplePolicy fallbackSession).2.2.head? =
      some (.put "/policies/id/5") ∧
    countPosts (save Policy samplePolicy fallbackSession).2.2 = 1 := by
  have h := claim_C1_amended_put_first_create_fallback Policy samplePolicy
    fallbackSession rfl (fun u e he => Except.noConfusion he)
  exact ⟨h.1, (h.2.2.2.1).mpr ⟨⟨none, rfl⟩, rfl⟩⟩

/-! ## Claims C6, C10: structural list removal -/

/-- Claim C6 counterexample: on a list whose first child matches the key
`"1"` by identifier and whose second child matches it by name, the
spec's identifier-first matching rule finds exactly one child (so the
claim predicts a successful removal), but `remove_object_from_list`
filters by identifier *or* name in a single pass, finds two children and
raises the ambiguity error (`ValueError`, the spec's
`AmbiguousOrMissingError`). -/
theorem claim_C6_counterexample :
    (specRemoveMatches ambiguousList "1").length = 1 ∧
    removeObjectFromList samplePolicy (.str "1") (.elem ambiguousList) =
      .error (.valueError
        "There is either more than one object, or no matches at that path!") :=
  ⟨rfl, rfl⟩

/-- Claim C6 (amended): for a string or integer removal key, a child
matches when its identifier text equals the key or (for string keys) its
name text equals the key — one combined pass, not identifier-first with
a name fallback; the removal succeeds if and only if exactly one child
matches this combined test, and otherwise raises the ambiguity error
(`ValueError`, the spec's `AmbiguousOrMissingError`). -/
theorem claim_C6_amended_remove_exactly_one (self listE : Element)
    (k : RemoveKey) (hk : (∃ s, k = .str s) ∨ (∃ n, k = .int n)) :
    ((listE.children.filter (matchesKey k)).length = 1 →
      removeObjectFromList self k (.elem listE) =
        .ok (.mk listE.tag listE.text
          (removeFirstBy (matchesKey k) listE.children))) ∧
    ((listE.children.filter (matchesKey k)).length ≠ 1 →
      removeObjectFromList self k (.elem listE) =
        .error (.valueError
          "There is either more than one object, or no matches at that path!")) := by
  obtain ⟨s, rfl⟩ | ⟨n, rfl⟩ := hk
  · constructor
    · intro h1
      unfold removeObjectFromList handleLocation removeResults
      simp [h1]
    · intro h1
      unfold removeObjectFromList handleLocation removeResults
      simp [h1]
  · constructor
    · intro h1
      unfold removeObjectFromList handleLocation removeResults
      simp [h1]
    · intro h1
      unfold removeObjectFromList handleLocation removeResults
      simp [h1]

/-- Witness for the amended claim C6: removing the key `"foo"`, which
matches exactly one child of the list, succeeds and removes that child. -/
theorem claim_C6_amended_witness :
    (ambiguousList.children.filter (matchesKey (.str "foo"))).length = 1 ∧
    removeObjectFromList samplePolicy (.str "foo") (.elem ambiguousList) =
      .ok (.mk "computers" none
        [.mk "computer" none [leaf "id" "2", leaf "name" "1"]]) := by
  refine ⟨rfl, ?_⟩
  exact (claim_C6_amended_remove_exactly_one samplePolicy ambiguousList
    (.str "foo") (Or.inl ⟨"foo", rfl⟩)).1 rfl

/-- Claim C10: calling `remove_object_from_list` with a key that is
neither a `JSSObject` nor an `int`/`str` leaves the `results` local
unassigned, so the match-count check raises `UnboundLocalError` (a
`NameError`) — no library error type is involved. -/
theorem claim_C10_unhandled_key_nameerror (self listE : Element) :
    removeObjectFromList self RemoveKey.other (.elem listE) =
      .error .nameError := rfl
